import Mathlib

/-!
Shallow embedding of the eggtimer crate (src/lib.rs).

The platform monotonic clock is modelled by passing an explicit `now : Instant`
(a count of nanoseconds) to every operation that reads the clock in the source.
Rust's `std::time::Duration` is modelled by its two components (`secs : u64`,
`nanos : u32 < 10^9`) as natural numbers; the operations used by the crate
(`new`, `+`, `checked_sub`, `as_secs`, `subsec_nanos`) are translated from the
Rust standard library. Machine-integer truncating casts (`as u64`) are modelled
with explicit `% 2 ^ 64`.
-/

namespace Eggtimer

/-- Nanoseconds per second, the constant `NANOS_PER_SEC` of `std::time`. -/
def nanosPerSec : Nat := 1000000000

/-- Model of `std::time::Duration`: whole seconds and sub-second nanoseconds. -/
structure Duration where
  secs : Nat
  nanos : Nat
deriving DecidableEq

/-- `Duration::new(secs, nanos)`: carries surplus nanoseconds into the seconds
component (the u64 overflow panic is unreachable for the inputs modelled here). -/
def Duration.new (secs nanos : Nat) : Duration :=
  ⟨secs + nanos / nanosPerSec, nanos % nanosPerSec⟩

/-- The `Duration` invariant: the nanosecond component is sub-second. -/
abbrev Duration.wf (d : Duration) : Prop := d.nanos < nanosPerSec

/-- Total nanosecond count of a `Duration` (specification-side view). -/
def Duration.toNanos (d : Duration) : Nat := d.secs * nanosPerSec + d.nanos

/-- The `Duration` of `n` nanoseconds, in canonical form. -/
def Duration.ofNanos (n : Nat) : Duration := ⟨n / nanosPerSec, n % nanosPerSec⟩

/-- `Duration::add` (used via `+=` and `+` in the crate): component-wise sum
with carry from nanoseconds into seconds, from the Rust standard library. -/
def Duration.add (a b : Duration) : Duration :=
  if a.nanos + b.nanos < nanosPerSec then
    Duration.new (a.secs + b.secs) (a.nanos + b.nanos)
  else
    Duration.new (a.secs + b.secs + 1) (a.nanos + b.nanos - nanosPerSec)

instance : Add Duration := ⟨Duration.add⟩

/-- `Duration::checked_sub` from the Rust standard library: `none` signals
underflow (the subtrahend exceeds the minuend), otherwise the difference. -/
def Duration.checked_sub (a b : Duration) : Option Duration :=
  if b.secs ≤ a.secs then
    if b.nanos ≤ a.nanos then
      some (Duration.new (a.secs - b.secs) (a.nanos - b.nanos))
    else if 1 ≤ a.secs - b.secs then
      some (Duration.new (a.secs - b.secs - 1) (a.nanos + nanosPerSec - b.nanos))
    else
      none
  else
    none

/-- `Duration::as_secs`: the whole-second count. -/
def Duration.as_secs (d : Duration) : Nat := d.secs

/-- An `Instant` of the monotonic clock, as nanoseconds from an arbitrary origin. -/
abbrev Instant := Nat

/-- `Instant::duration_since`: the `Duration` between two instants (the source
only calls it with `self` at or after `earlier`, the clock being monotonic). -/
def Instant.duration_since (self earlier : Instant) : Duration :=
  Duration.ofNanos (self - earlier)

/-- `Timer` (lib.rs line 127): records its start instant. -/
structure Timer where
  start : Instant
deriving DecidableEq

/-- `Timer::start` (line 133): captures the current instant. -/
def Timer.startAt (now : Instant) : Timer := ⟨now⟩

/-- `Timer::duration` (line 147): `Instant::now().duration_since(self.start)`. -/
def Timer.duration (t : Timer) (now : Instant) : Duration :=
  now.duration_since t.start

/-- `EggTimer` (line 164): a `Timer` plus the target duration. -/
structure EggTimer where
  timer : Timer
  duration : Duration
deriving DecidableEq

/-- `EggTimer::set` (line 171): a fresh timer with the given target duration
(instantiated at `D = Duration`, whose `to_duration` is the identity). -/
def EggTimer.set (time : Duration) (now : Instant) : EggTimer :=
  ⟨Timer.startAt now, time⟩

/-- `EggTimer::duration_left` (line 182): `self.duration.checked_sub(self.timer.duration())`. -/
def EggTimer.duration_left (e : EggTimer) (now : Instant) : Option Duration :=
  e.duration.checked_sub (e.timer.duration now)

/-- `EggTimer::is_ready` (line 190): `self.duration_left().is_none()`. -/
def EggTimer.is_ready (e : EggTimer) (now : Instant) : Bool :=
  (e.duration_left now).isNone

/-- `Stopwatch` (line 223). -/
structure Stopwatch where
  last_start : Instant
  prev_dur : Duration
  paused : Bool
deriving DecidableEq

/-- `Stopwatch::start` (line 231): running, with zero accumulated duration. -/
def Stopwatch.start (now : Instant) : Stopwatch :=
  ⟨now, Duration.new 0 0, false⟩

/-- `Stopwatch::start_paused` (line 239): paused, with zero accumulated duration. -/
def Stopwatch.start_paused (now : Instant) : Stopwatch :=
  ⟨now, Duration.new 0 0, true⟩

/-- `Stopwatch::duration` (line 256): accumulated duration, plus the live
segment when not paused. -/
def Stopwatch.duration (sw : Stopwatch) (now : Instant) : Duration :=
  if sw.paused then sw.prev_dur
  else sw.prev_dur + now.duration_since sw.last_start

/-- `Stopwatch::pause` (line 264), verbatim: when not paused it adds the live
segment to `prev_dur`; the `paused` field is left unchanged by the source. -/
def Stopwatch.pause (sw : Stopwatch) (now : Instant) : Stopwatch :=
  if !sw.paused then
    { sw with prev_dur := sw.prev_dur + now.duration_since sw.last_start }
  else
    sw

/-- `Stopwatch::resume` (line 270), verbatim: when paused it refreshes
`last_start`; the `paused` field is left unchanged by the source. -/
def Stopwatch.resume (sw : Stopwatch) (now : Instant) : Stopwatch :=
  if sw.paused then { sw with last_start := now } else sw

/-- `Stopwatch::toggle` (line 276), verbatim: `if self.paused { self.pause() }
else { self.resume() }`. -/
def Stopwatch.toggle (sw : Stopwatch) (now : Instant) : Stopwatch :=
  if sw.paused then sw.pause now else sw.resume now

/-- `impl ToDuration for u8` (line 47): widening `u64::from`, zero nanoseconds. -/
def u8.to_duration (n : Nat) : Duration := Duration.new n 0

/-- `impl ToDuration for u16` (line 53): widening `u64::from`, zero nanoseconds. -/
def u16.to_duration (n : Nat) : Duration := Duration.new n 0

/-- `impl ToDuration for u32` (line 59): widening `u64::from`, zero nanoseconds. -/
def u32.to_duration (n : Nat) : Duration := Duration.new n 0

/-- `impl ToDuration for u64` (line 65): the value itself, zero nanoseconds. -/
def u64.to_duration (n : Nat) : Duration := Duration.new n 0

/-- `impl ToDuration for u128` (line 71): `*self as u64` truncates modulo 2^64. -/
def u128.to_duration (n : Nat) : Duration := Duration.new (n % 2 ^ 64) 0

/-- `impl ToDuration for usize` (line 77): `*self as u64`; on the 64-bit
platforms the crate targets, `usize` values already lie below 2^64. -/
def usize.to_duration (n : Nat) : Duration := Duration.new (n % 2 ^ 64) 0

/-- `impl FromDuration for u64` (line 95): `duration.as_secs()`. -/
def u64.from_duration (d : Duration) : Nat := d.as_secs

/-- `impl FromDuration for u128` (line 101): widening `u128::from` of `as_secs`. -/
def u128.from_duration (d : Duration) : Nat := d.as_secs

/-- `impl FromDuration for usize` (line 107): `duration.as_secs() as usize`,
a truncating cast modulo 2^64 on the 64-bit platforms the crate targets. -/
def usize.from_duration (d : Duration) : Nat := d.as_secs % 2 ^ 64

/-- `TimedList` (line 300): a vector of (timer, element) pairs. -/
structure TimedList (T : Type) where
  list : List (EggTimer × T)
deriving DecidableEq

/-- `TimedList::clean` (line 316): `self.list.retain(|(timer, _)| !timer.is_ready())`. -/
def TimedList.clean {T : Type} (l : TimedList T) (now : Instant) : TimedList T :=
  ⟨l.list.filter fun e => !(e.1.is_ready now)⟩

/-- `TimedList::iter` (line 345): a `&self` method, so the state is returned
unchanged; the iterator filter-maps non-ready entries to their elements. -/
def TimedList.iter {T : Type} (l : TimedList T) (now : Instant) :
    TimedList T × List T :=
  (l, l.list.filterMap fun e => if e.1.is_ready now then none else some e.2)

/-- `TimedList::iter_mut` (line 361): calls `clean` first, then filter-maps
non-ready entries of the compacted state to their elements. -/
def TimedList.iter_mut {T : Type} (l : TimedList T) (now : Instant) :
    TimedList T × List T :=
  let l2 := l.clean now
  (l2, l2.list.filterMap fun e => if e.1.is_ready now then none else some e.2)

/-- `TimedList::timer_iter` (line 380): a `&self` method, so the state is
returned unchanged; yields `(element, timer)` pairs of non-ready entries. -/
def TimedList.timer_iter {T : Type} (l : TimedList T) (now : Instant) :
    TimedList T × List (T × EggTimer) :=
  (l, l.list.filterMap fun e => if e.1.is_ready now then none else some (e.2, e.1))

/-- `TimedList::timer_iter_mut` (line 394): calls `clean` first, then yields
`(element, timer)` pairs of non-ready entries of the compacted state. -/
def TimedList.timer_iter_mut {T : Type} (l : TimedList T) (now : Instant) :
    TimedList T × List (T × EggTimer) :=
  let l2 := l.clean now
  (l2, l2.list.filterMap fun e => if e.1.is_ready now then none else some (e.2, e.1))

/-- `IntoIterator for TimedList` (line 426): calls `clean` on the consumed
list, then yields the elements of the surviving non-ready entries. -/
def TimedList.into_iter {T : Type} (l : TimedList T) (now : Instant) : List T :=
  let l2 := l.clean now
  l2.list.filterMap fun e => if e.1.is_ready now then none else some e.2

/-- `TimedList::len` (line 324): `self.iter().count()`. -/
def TimedList.len {T : Type} (l : TimedList T) (now : Instant) : Nat :=
  (l.iter now).2.length

/-- `TimedList::is_empty` (line 328): `self.len() == 0`. -/
def TimedList.is_empty {T : Type} (l : TimedList T) (now : Instant) : Bool :=
  l.len now == 0

theorem Duration.toNanos_ofNanos (n : Nat) : (Duration.ofNanos n).toNanos = n := by
  simp only [Duration.ofNanos, Duration.toNanos, nanosPerSec]
  omega

theorem Duration.wf_ofNanos (n : Nat) : (Duration.ofNanos n).wf := by
  simp only [Duration.ofNanos, Duration.wf, nanosPerSec]
  omega

theorem Duration.checked_sub_eq_none_iff (a b : Duration) (ha : a.wf) (hb : b.wf) :
    a.checked_sub b = none ↔ a.toNanos < b.toNanos := by
  simp only [Duration.wf, nanosPerSec] at ha hb
  unfold Duration.checked_sub
  split_ifs with h1 h2 h3 <;>
    simp only [Duration.toNanos, nanosPerSec, reduceCtorEq, false_iff, not_lt, true_iff] <;>
    omega

theorem Duration.checked_sub_eq_some_toNanos (a b c : Duration) (ha : a.wf) (hb : b.wf)
    (h : a.checked_sub b = some c) :
    c.toNanos = a.toNanos - b.toNanos ∧ b.toNanos ≤ a.toNanos ∧ c.wf := by
  simp only [Duration.wf, nanosPerSec] at ha hb
  unfold Duration.checked_sub at h
  split_ifs at h with h1 h2 h3 <;>
    simp only [Option.some.injEq] at h <;>
    subst h <;>
    simp only [Duration.new, Duration.toNanos, Duration.wf, nanosPerSec] <;>
    omega

/-- Claim C1 (code bug): after `pause()` at t=5ns on a stopwatch started
running at t=0, the `paused` field is still `false` (the source never sets
it), `duration()` at t=9ns reports 14ns — it keeps growing with real time
and double-counts the already-folded live segment instead of staying
constant at 5ns — and a second `pause()` at t=9ns changes the state again,
so pausing twice is not the same as pausing once. -/
theorem c1_pause_code_bug :
    (((Stopwatch.start 0).pause 5).paused = false) ∧
    ((Stopwatch.start 0).pause 5).duration 9 = Duration.mk 0 14 ∧
    (((Stopwatch.start 0).pause 5).pause 9 ≠ (Stopwatch.start 0).pause 5) := by
  decide

/-- Claim C2 (code bug): after `resume()` at t=5ns on a stopwatch created
with `start_paused()` at t=0, the `paused` field is still `true` (the source
never clears it), and `duration()` at t=10ns is still 0 instead of growing
with real time (the claim expects 5ns of elapsed time by t=10). -/
theorem c2_resume_code_bug :
    (((Stopwatch.start_paused 0).resume 5).paused = true) ∧
    ((Stopwatch.start_paused 0).resume 5).duration 10 = Duration.mk 0 0 := by
  decide

/-- Claim C3 (code bug): `toggle()` never changes the stopwatch at all. The
source calls `pause()` when paused and `resume()` when running — the inverse
of the claimed transitions — and since `pause()` is guarded by `!paused` and
`resume()` by `paused`, both calls are no-ops, so `toggle` is the identity
from either state instead of flipping it. -/
theorem c3_toggle_code_bug (sw : Stopwatch) (now : Instant) : sw.toggle now = sw := by
  cases h : sw.paused <;>
    simp [Stopwatch.toggle, Stopwatch.pause, Stopwatch.resume, h]

/-- Claim C4 (counterexample): an `EggTimer` set with a zero target duration
is NOT ready at the exact creation instant: with elapsed time equal to the
target, `duration_left()` is `Some(0)` (not absent) and `is_ready()` is
`false`, contradicting "ready immediately upon creation" and "absent once
elapsed reaches or equals t". -/
theorem c4_counterexample :
    (EggTimer.set (Duration.mk 0 0) 0).is_ready 0 = false ∧
    (EggTimer.set (Duration.mk 0 0) 0).duration_left 0 = some (Duration.mk 0 0) := by
  decide

/-- Claim C4 (amended): for a well-formed target duration t, `duration_left()`
is absent exactly when the elapsed nanoseconds STRICTLY exceed t (never a
negative value — any present value is t minus elapsed); `is_ready()` holds
exactly when elapsed > t; and a zero-target `EggTimer` is ready exactly once
a positive amount of time has elapsed (not at the exact creation instant). -/
theorem c4_amended (e : EggTimer) (now : Instant) (hwf : e.duration.wf) :
    (e.duration_left now = none ↔ e.duration.toNanos < now - e.timer.start) ∧
    (∀ d, e.duration_left now = some d →
      d.toNanos = e.duration.toNanos - (now - e.timer.start) ∧
      now - e.timer.start ≤ e.duration.toNanos) ∧
    (e.is_ready now = true ↔ e.duration.toNanos < now - e.timer.start) ∧
    (e.duration = Duration.mk 0 0 → (e.is_ready now = true ↔ 0 < now - e.timer.start)) := by
  have hel : (e.timer.duration now).toNanos = now - e.timer.start :=
    Duration.toNanos_ofNanos _
  have hwfel : (e.timer.duration now).wf := Duration.wf_ofNanos _
  have hnone : e.duration_left now = none ↔ e.duration.toNanos < now - e.timer.start := by
    rw [EggTimer.duration_left, Duration.checked_sub_eq_none_iff _ _ hwf hwfel, hel]
  have hready : e.is_ready now = true ↔ e.duration.toNanos < now - e.timer.start := by
    rw [EggTimer.is_ready, Option.isNone_iff_eq_none, hnone]
  refine ⟨hnone, ?_, hready, ?_⟩
  · intro d hd
    have := Duration.checked_sub_eq_some_toNanos _ _ _ hwf hwfel hd
    rw [hel] at this
    exact ⟨this.1, this.2.1⟩
  · intro h0
    rw [hready, h0]
    simp [Duration.toNanos]

/-- Claim C4 (amended) at a concrete input: a 3ns egg timer set at t=0 is
ready at t=10, by the amended characterisation. -/
theorem c4_amended_witness :
    (EggTimer.set (Duration.mk 0 3) 0).is_ready 10 = true := by
  have h := c4_amended (EggTimer.set (Duration.mk 0 3) 0) 10 (by decide)
  exact h.2.2.1.mpr (by decide)

theorem filterMap_entries_eq {T : Type} (now : Instant) (m : List (EggTimer × T)) :
    (m.filterMap fun e => if e.1.is_ready now then none else some e.2) =
      (m.filter fun e => !(e.1.is_ready now)).map Prod.snd := by
  induction m with
  | nil => rfl
  | cons a t ih =>
    by_cases h : a.1.is_ready now <;>
      simp [List.filterMap_cons, List.filter_cons, h, ih]

theorem filterMap_pairs_eq {T : Type} (now : Instant) (m : List (EggTimer × T)) :
    (m.filterMap fun e => if e.1.is_ready now then none else some (e.2, e.1)) =
      (m.filter fun e => !(e.1.is_ready now)).map (fun e => (e.2, e.1)) := by
  induction m with
  | nil => rfl
  | cons a t ih =>
    by_cases h : a.1.is_ready now <;>
      simp [List.filterMap_cons, List.filter_cons, h, ih]

theorem length_filter_not_add_countP {α : Type} (f : α → Bool) (m : List α) :
    (m.filter fun e => !(f e)).length + m.countP f = m.length := by
  induction m with
  | nil => rfl
  | cons a t ih =>
    by_cases h : f a <;> simp [List.filter_cons, List.countP_cons, h] <;> omega

theorem countP_not_eq_length_filter {α : Type} (f : α → Bool) (m : List α) :
    m.countP (fun e => !(f e)) = (m.filter fun e => !(f e)).length := by
  induction m with
  | nil => rfl
  | cons a t ih =>
    by_cases h : f a <;> simp [List.filter_cons, List.countP_cons, h, ih]

theorem filter_clean_eq_self {T : Type} (l : TimedList T) (now : Instant) :
    ((l.clean now).list.filter fun e => !(e.1.is_ready now)) = (l.clean now).list := by
  simp only [TimedList.clean, List.filter_filter, Bool.and_self]

/-- Claim C5: `clean()` removes exactly the ready entries — the compacted
list is an order-preserving sublist of the original, none of its entries is
ready, every non-ready entry survives, and its length is the original
length minus the number of ready entries — and `iter_mut`, `timer_iter_mut`
and the consuming iteration all perform this same compaction before
yielding, yielding exactly the surviving entries in order. -/
theorem c5_clean_compaction {T : Type} (l : TimedList T) (now : Instant) :
    List.Sublist (l.clean now).list l.list ∧
    (∀ e ∈ (l.clean now).list, e.1.is_ready now = false) ∧
    (∀ e ∈ l.list, e.1.is_ready now = false → e ∈ (l.clean now).list) ∧
    ((l.clean now).list.length + l.list.countP (fun e => e.1.is_ready now) = l.list.length) ∧
    (l.iter_mut now).1 = l.clean now ∧
    (l.iter_mut now).2 = (l.clean now).list.map Prod.snd ∧
    (l.timer_iter_mut now).1 = l.clean now ∧
    (l.timer_iter_mut now).2 = (l.clean now).list.map (fun e => (e.2, e.1)) ∧
    l.into_iter now = (l.clean now).list.map Prod.snd := by
  refine ⟨List.filter_sublist _, ?_, ?_, ?_, rfl, ?_, rfl, ?_, ?_⟩
  · intro e he
    have := (List.mem_filter.mp he).2
    simpa using this
  · intro e he hnr
    exact List.mem_filter.mpr ⟨he, by simp [hnr]⟩
  · exact length_filter_not_add_countP _ _
  · show ((l.clean now).list.filterMap fun e => if e.1.is_ready now then none else some e.2) = _
    rw [filterMap_entries_eq, filter_clean_eq_self]
  · show ((l.clean now).list.filterMap fun e => if e.1.is_ready now then none else some (e.2, e.1)) = _
    rw [filterMap_pairs_eq, filter_clean_eq_self]
  · show ((l.clean now).list.filterMap fun e => if e.1.is_ready now then none else some e.2) = _
    rw [filterMap_entries_eq, filter_clean_eq_self]

/-- Claim C5 at a concrete input: an entry whose timer survives `clean` at
t=10 is indeed not ready at t=10. -/
theorem c5_witness :
    (EggTimer.set (Duration.mk 0 50) 0).is_ready 10 = false :=
  (c5_clean_compaction
      (TimedList.mk [(EggTimer.set (Duration.mk 0 5) 0, (1 : Nat)),
        (EggTimer.set (Duration.mk 0 50) 0, 2)]) 10).2.1
    (EggTimer.set (Duration.mk 0 50) 0, 2) (by decide)

/-- Claim C6: `iter()` and `timer_iter()` return the list state unchanged
(their bodies perform no compaction), `len()` counts exactly the non-ready
entries, `is_empty()` holds iff that count is zero, and neither read-only
iterator ever yields a value from a ready entry even while it is still
physically present: every yielded value comes from a non-ready entry. -/
theorem c6_readonly_frame {T : Type} (l : TimedList T) (now : Instant) :
    (l.iter now).1 = l ∧
    (l.timer_iter now).1 = l ∧
    (l.iter now).2 = (l.list.filter fun e => !(e.1.is_ready now)).map Prod.snd ∧
    l.len now = l.list.countP (fun e => !(e.1.is_ready now)) ∧
    (l.is_empty now = true ↔ l.list.countP (fun e => !(e.1.is_ready now)) = 0) ∧
    (∀ v ∈ (l.iter now).2, ∃ t, (t, v) ∈ l.list ∧ t.is_ready now = false) ∧
    (∀ p ∈ (l.timer_iter now).2, (p.2, p.1) ∈ l.list ∧ p.2.is_ready now = false) := by
  have hiter : (l.iter now).2 = (l.list.filter fun e => !(e.1.is_ready now)).map Prod.snd :=
    filterMap_entries_eq now l.list
  have hlen : l.len now = l.list.countP (fun e => !(e.1.is_ready now)) := by
    rw [TimedList.len, hiter, List.length_map, countP_not_eq_length_filter]
  refine ⟨rfl, rfl, hiter, hlen, ?_, ?_, ?_⟩
  · rw [TimedList.is_empty, hlen]
    simp
  · intro v hv
    rw [hiter] at hv
    obtain ⟨e, he, hev⟩ := List.mem_map.mp hv
    have hmem := List.mem_filter.mp he
    refine ⟨e.1, ?_, by simpa using hmem.2⟩
    have : (e.1, e.2) = e := rfl
    rw [hev] at this
    rw [this]
    exact hmem.1
  · intro p hp
    have htiter :
        (l.timer_iter now).2 =
          (l.list.filter fun e => !(e.1.is_ready now)).map (fun e => (e.2, e.1)) :=
      filterMap_pairs_eq now l.list
    rw [htiter] at hp
    obtain ⟨e, he, hev⟩ := List.mem_map.mp hp
    have hmem := List.mem_filter.mp he
    subst hev
    exact ⟨hmem.1, by simpa using hmem.2⟩

/-- Claim C6 at a concrete input: a list holding one expired and one live
entry at t=10 reports `len() = 1`, by the count characterisation. -/
theorem c6_witness :
    (TimedList.mk [(EggTimer.set (Duration.mk 0 5) 0, (1 : Nat)),
      (EggTimer.set (Duration.mk 0 50) 0, 2)]).len 10 = 1 := by
  rw [(c6_readonly_frame
    (TimedList.mk [(EggTimer.set (Duration.mk 0 5) 0, (1 : Nat)),
      (EggTimer.set (Duration.mk 0 50) 0, 2)]) 10).2.2.2.1]
  decide

/-- Claim C8 (counterexample): `impl ToDuration for u128` converts with
`*self as u64`, so the u128 value 2^64 yields a Duration of 0 seconds, not
2^64 seconds as the claim requires. -/
theorem c8_counterexample :
    (u128.to_duration (2 ^ 64)).secs = 0 ∧ (2 ^ 64 : Nat) ≠ 0 := by
  decide

/-- Claim C8 (amended): u8/u16/u32/u64 values convert to exactly n whole
seconds with zero nanoseconds; u128 and usize values are first truncated
modulo 2^64 (`as u64`), so values at or above 2^64 wrap; converting a
Duration back to u64/u128 yields its whole-second count exactly (sub-second
part discarded), and to usize yields it modulo 2^64 — exact whenever the
second count fits in 64 bits, as every value produced by `as_secs` does. -/
theorem c8_amended (n : Nat) (d : Duration) (hd : d.secs < 2 ^ 64) :
    u8.to_duration n = ⟨n, 0⟩ ∧
    u16.to_duration n = ⟨n, 0⟩ ∧
    u32.to_duration n = ⟨n, 0⟩ ∧
    u64.to_duration n = ⟨n, 0⟩ ∧
    u128.to_duration n = ⟨n % 2 ^ 64, 0⟩ ∧
    usize.to_duration n = ⟨n % 2 ^ 64, 0⟩ ∧
    u64.from_duration d = d.secs ∧
    u128.from_duration d = d.secs ∧
    usize.from_duration d = d.secs := by
  refine ⟨?_, ?_, ?_, ?_, ?_, ?_, rfl, rfl, ?_⟩
  · simp [u8.to_duration, Duration.new, nanosPerSec]
  · simp [u16.to_duration, Duration.new, nanosPerSec]
  · simp [u32.to_duration, Duration.new, nanosPerSec]
  · simp [u64.to_duration, Duration.new, nanosPerSec]
  · simp [u128.to_duration, Duration.new, nanosPerSec]
  · simp [usize.to_duration, Duration.new, nanosPerSec]
  · simp only [usize.from_duration, Duration.as_secs]
    omega

/-- Claim C8 (amended) at concrete inputs: the u128 value 2^64 + 7 wraps to
7 seconds, and a Duration of 9s 1ns converts to the usize 9. -/
theorem c8_amended_witness :
    u128.to_duration (2 ^ 64 + 7) = ⟨7, 0⟩ ∧ usize.from_duration ⟨9, 1⟩ = 9 := by
  have h := c8_amended (2 ^ 64 + 7) ⟨9, 1⟩ (by decide)
  refine ⟨?_, h.2.2.2.2.2.2.2.2⟩
  rw [h.2.2.2.2.1]
  decide

end Eggtimer
